import Mathlib

/-!
Verification of the proximity/geospatial engine of the Down-To-Play repository.

The embedded code:
* `calculateDistance` and `toRad` from src/src/stores/locationStore.ts (Haversine, R = 6371 km);
* `FieldRepository.calculateDistance` from src/src/features/fields/repositories/fieldRepository.ts
  (Haversine, R = 6371e3 m);
* the proximity map/filter/sort passes of `fetchNearbyPlayers` (src/src/stores/playerStore.ts),
  `fetchNearbyCourts` (src/src/stores/courtStore.ts) and `fetchNearbyGames`
  (src/src/stores/gameStore.ts).

JavaScript `number` values are modelled by `JSNum`: NaN, signed infinities, or a real number
(floating-point rounding is abstracted to exact real arithmetic; signed zero is not modelled —
the one real zero behaves as +0.  None of the embedded code distinguishes -0 from +0).
Nullable fields (`number | null`, possibly-undefined properties) are modelled by `Option JSNum`,
conflating `null` and `undefined` (the embedded code only ever applies truthiness tests or the
`===  undefined` test to these, where the two behave identically).
The JavaScript `Array.prototype.sort` (required stable since ES2019) is modelled by a stable
insertion sort driven by the comparator; for element pairs on which a comparator is inconsistent
the ECMAScript sort order is implementation-defined, and the model fixes one such order.
-/

open scoped Classical

noncomputable section

/-- A JavaScript double, abstracted: NaN, a signed infinity, or an exact real. -/
inductive JSNum where
  | nan : JSNum
  | inf : Bool → JSNum
  | num : ℝ → JSNum

namespace JSNum

/-- JS `+` on numbers (IEEE special cases for NaN and infinities). -/
def add : JSNum → JSNum → JSNum
  | nan, _ => nan
  | _, nan => nan
  | inf s, inf t => if s = t then inf s else nan
  | inf s, num _ => inf s
  | num _, inf t => inf t
  | num x, num y => num (x + y)

/-- JS `-` on numbers. -/
def sub : JSNum → JSNum → JSNum
  | nan, _ => nan
  | _, nan => nan
  | inf s, inf t => if s = t then nan else inf s
  | inf s, num _ => inf s
  | num _, inf t => inf (!t)
  | num x, num y => num (x - y)

/-- JS `*` on numbers. -/
def mul : JSNum → JSNum → JSNum
  | nan, _ => nan
  | _, nan => nan
  | inf s, inf t => inf (s == t)
  | inf s, num y => if y = 0 then nan else inf (if 0 < y then s else !s)
  | num x, inf t => if x = 0 then nan else inf (if 0 < x then t else !t)
  | num x, num y => num (x * y)

/-- JS `/` on numbers.  Division of a nonzero real by zero yields the infinity carrying the
sign of the numerator (the +0 behaviour; -0 is not modelled — no embedded code divides by 0). -/
def div : JSNum → JSNum → JSNum
  | nan, _ => nan
  | _, nan => nan
  | inf _, inf _ => nan
  | inf s, num y => if y = 0 then inf s else inf (if 0 < y then s else !s)
  | num _, inf _ => num 0
  | num x, num y =>
      if y = 0 then (if x = 0 then nan else inf (if 0 < x then true else false))
      else num (x / y)

/-- JS `Math.sin` (NaN on NaN and on infinities). -/
def jsin : JSNum → JSNum
  | num x => num (Real.sin x)
  | _ => nan

/-- JS `Math.cos`. -/
def jcos : JSNum → JSNum
  | num x => num (Real.cos x)
  | _ => nan

/-- JS `Math.sqrt` (NaN for negative arguments and -Infinity). -/
def jsqrt : JSNum → JSNum
  | num x => if x < 0 then nan else num (Real.sqrt x)
  | inf s => if s then inf true else nan
  | nan => nan

end JSNum

/-- Real-valued two-argument arctangent, following `Math.atan2` on finite reals (with the one
real zero behaving as +0; the embedded code only ever reaches `atan2R` with both arguments
nonnegative). -/
def atan2R (y x : ℝ) : ℝ :=
  if 0 < x then Real.arctan (y / x)
  else if x < 0 then
    (if 0 ≤ y then Real.arctan (y / x) + Real.pi else Real.arctan (y / x) - Real.pi)
  else
    (if 0 < y then Real.pi / 2 else if y < 0 then -(Real.pi / 2) else 0)

namespace JSNum

/-- JS `Math.atan2` (IEEE special values on NaN and infinite arguments). -/
def jatan2 : JSNum → JSNum → JSNum
  | nan, _ => nan
  | _, nan => nan
  | inf s, inf t =>
      num ((if s then 1 else -1) * (if t then Real.pi / 4 else 3 * Real.pi / 4))
  | inf s, num _ => num (if s then Real.pi / 2 else -(Real.pi / 2))
  | num y, inf t => if t then num 0 else num (if 0 ≤ y then Real.pi else -Real.pi)
  | num y, num x => num (atan2R y x)

end JSNum

open JSNum

/-- The helper `toRad` of src/src/stores/locationStore.ts: `deg * (Math.PI / 180)`. -/
def toRad (deg : JSNum) : JSNum := deg.mul (num (Real.pi / 180))

/-- `calculateDistance` from src/src/stores/locationStore.ts: Haversine great-circle
distance with Earth radius `R = 6371` (kilometers). -/
def calculateDistance (lat1 lon1 lat2 lon2 : JSNum) : JSNum :=
  let R : JSNum := num 6371
  let dLat := toRad (lat2.sub lat1)
  let dLon := toRad (lon2.sub lon1)
  let a :=
    ((dLat.div (num 2)).jsin.mul (dLat.div (num 2)).jsin).add
      ((((toRad lat1).jcos.mul (toRad lat2).jcos).mul
          (dLon.div (num 2)).jsin).mul (dLon.div (num 2)).jsin)
  let c := (num 2).mul (jatan2 a.jsqrt ((num 1).sub a).jsqrt)
  R.mul c

/-- A latitude/longitude record, as the `Coordinates` type of the fields feature. -/
structure Coordinates where
  latitude : JSNum
  longitude : JSNum

/-- `FieldRepository.calculateDistance` from
src/src/features/fields/repositories/fieldRepository.ts: Haversine with Earth radius
`R = 6371e3` (meters). -/
def fieldCalculateDistance (p q : Coordinates) : JSNum :=
  let R : JSNum := num 6371000
  let φ1 := (p.latitude.mul (num Real.pi)).div (num 180)
  let φ2 := (q.latitude.mul (num Real.pi)).div (num 180)
  let dphi := ((q.latitude.sub p.latitude).mul (num Real.pi)).div (num 180)
  let dlam := ((q.longitude.sub p.longitude).mul (num Real.pi)).div (num 180)
  let a :=
    ((dphi.div (num 2)).jsin.mul (dphi.div (num 2)).jsin).add
      (((φ1.jcos.mul φ2.jcos).mul (dlam.div (num 2)).jsin).mul (dlam.div (num 2)).jsin)
  let c := (num 2).mul (jatan2 a.jsqrt ((num 1).sub a).jsqrt)
  R.mul c

/-- The Haversine distance exactly as the specification words it: convert both
latitudes/longitudes to radians, take the radian differences, form
`a = sin²(Δφ/2) + cos(φ1)·cos(φ2)·sin²(Δλ/2)` and `c = 2·atan2(√a, √(1-a))`, and return
`R·c` with `R = 6371` km. -/
def specHaversine (lat1 lon1 lat2 lon2 : JSNum) : JSNum :=
  let φ1 := toRad lat1
  let φ2 := toRad lat2
  let dphi := (toRad lat2).sub (toRad lat1)
  let dlam := (toRad lon2).sub (toRad lon1)
  let a :=
    ((dphi.div (num 2)).jsin.mul (dphi.div (num 2)).jsin).add
      (((φ1.jcos.mul φ2.jcos).mul (dlam.div (num 2)).jsin).mul (dlam.div (num 2)).jsin)
  let c := (num 2).mul (jatan2 a.jsqrt ((num 1).sub a).jsqrt)
  (num 6371).mul c

/-! ### Real-arithmetic form of the Haversine computation -/

/-- Degrees to radians on reals. -/
def radR (d : ℝ) : ℝ := d * (Real.pi / 180)

/-- The intermediate `a` of `calculateDistance`, on reals. -/
def aR (lat1 lon1 lat2 lon2 : ℝ) : ℝ :=
  Real.sin (radR (lat2 - lat1) / 2) * Real.sin (radR (lat2 - lat1) / 2) +
    Real.cos (radR lat1) * Real.cos (radR lat2) * Real.sin (radR (lon2 - lon1) / 2) *
      Real.sin (radR (lon2 - lon1) / 2)

/-- The real value computed by `calculateDistance` on finite inputs whose intermediate `a`
lands in `[0, 1]`. -/
def distR (lat1 lon1 lat2 lon2 : ℝ) : ℝ :=
  6371 * (2 * atan2R (Real.sqrt (aR lat1 lon1 lat2 lon2))
    (Real.sqrt (1 - aR lat1 lon1 lat2 lon2)))


/-! ### The proximity passes -/

/-- JS truthiness of a nullable number: `null`/`undefined`, `0` and NaN are falsy;
infinities and nonzero reals are truthy. -/
def jsTruthy : Option JSNum → Prop
  | none => False
  | some nan => False
  | some (inf _) => True
  | some (num x) => x ≠ 0

/-- The JS comparison `d <= r` for a JSNum `d` against a finite radius `r` (false whenever
`d` is NaN). -/
def jsLe (d : JSNum) (r : ℝ) : Prop :=
  match d with
  | nan => False
  | inf s => s = false
  | num x => x ≤ r

/-- A profiles row as consumed by `fetchNearbyPlayers`: nullable coordinates. -/
structure Player where
  id : ℕ
  latitude : Option JSNum
  longitude : Option JSNum

/-- A player decorated with the transient `distance` field (`none` = `undefined`). -/
structure RankedPlayer where
  player : Player
  distance : Option JSNum

/-- The decoration step of `fetchNearbyPlayers`: the truthiness test
`player.latitude && player.longitude` guards the call to `calculateDistance`. -/
def playerDist (ref : ℝ × ℝ) (p : Player) : Option JSNum :=
  if jsTruthy p.latitude ∧ jsTruthy p.longitude then
    some (calculateDistance (num ref.1) (num ref.2) (p.latitude.getD nan) (p.longitude.getD nan))
  else none

/-- The filter step of `fetchNearbyPlayers`: keep a player when its distance is undefined
or within the radius. -/
def playerKeep (r : ℝ) (q : RankedPlayer) : Prop :=
  match q.distance with
  | none => True
  | some d => jsLe d r

/-- ECMAScript SortCompare folds a comparator result into its sign, treating NaN as 0. -/
def cmpVal : JSNum → ℝ
  | nan => 0
  | inf s => if s then 1 else -1
  | num x => x

/-- The comparator of `fetchNearbyPlayers`: undefined distances sort last, defined ones by
`a.distance - b.distance`. -/
def playerCmp (a b : RankedPlayer) : ℝ :=
  match a.distance, b.distance with
  | none, _ => 1
  | some _, none => -1
  | some da, some db => cmpVal (da.sub db)

/-- Insertion into a sorted prefix, before the first element that the comparator does not
place strictly earlier. -/
def orderedInsert {α : Type} (cmp : α → α → ℝ) (a : α) : List α → List α
  | [] => [a]
  | b :: l => if cmp a b ≤ 0 then a :: b :: l else b :: orderedInsert cmp a l

/-- Model of `Array.prototype.sort` with a comparator: a stable comparator sort (the
behaviour ES2019 requires whenever the comparator is consistent; for pairs on which the
comparator is inconsistent the standard leaves the order implementation-defined and this
model fixes one order). -/
def jsSort {α : Type} (cmp : α → α → ℝ) : List α → List α
  | [] => []
  | a :: l => orderedInsert cmp a (jsSort cmp l)

/-- Model of `Array.prototype.filter` with a (classically decidable) predicate. -/
def jsFilter {α : Type} (p : α → Prop) : List α → List α
  | [] => []
  | a :: l => if p a then a :: jsFilter p l else jsFilter p l

/-- The proximity pass of `fetchNearbyPlayers` (src/src/stores/playerStore.ts): with a
known location, decorate with distance, filter by radius (keeping undefined distances),
and sort; with an unknown location, return the rows untouched (reading their absent
`distance` property gives `undefined`). -/
def fetchNearbyPlayers (loc : Option (ℝ × ℝ)) (players : List Player) (r : ℝ) :
    List RankedPlayer :=
  match loc with
  | none => players.map (fun p => ⟨p, none⟩)
  | some ref =>
      jsSort playerCmp
        (jsFilter (playerKeep r) (players.map (fun p => ⟨p, playerDist ref p⟩)))

/-- A courts row: the DB schema types both coordinates NOT NULL. -/
structure Court where
  id : ℕ
  latitude : ℝ
  longitude : ℝ

/-- A court decorated with the transient `distance` field. -/
structure RankedCourt where
  court : Court
  distance : Option JSNum

/-- The decoration of `fetchNearbyCourts` — no missing-coordinate guard. -/
def courtDist (ref : ℝ × ℝ) (c : Court) : JSNum :=
  calculateDistance (num ref.1) (num ref.2) (num c.latitude) (num c.longitude)

/-- The comparator of `fetchNearbyCourts`: always `a.distance - b.distance`. -/
def courtCmp (a b : RankedCourt) : ℝ :=
  cmpVal ((a.distance.getD nan).sub (b.distance.getD nan))

/-- The proximity pass of `fetchNearbyCourts` (src/src/stores/courtStore.ts). -/
def fetchNearbyCourts (loc : Option (ℝ × ℝ)) (courts : List Court) (r : ℝ) :
    List RankedCourt :=
  match loc with
  | none => courts.map (fun c => ⟨c, none⟩)
  | some ref =>
      jsSort courtCmp
        (jsFilter (fun q : RankedCourt => jsLe (q.distance.getD nan) r)
          (courts.map (fun c => ⟨c, some (courtDist ref c)⟩)))

/-- The (NOT NULL) court embedded in a game row. -/
structure GameCourt where
  latitude : JSNum
  longitude : JSNum

/-- A games row: optional court, nullable own coordinates. -/
structure Game where
  id : ℕ
  court : Option GameCourt
  latitude : Option JSNum
  longitude : Option JSNum

/-- JS `x || y` on nullable numbers. -/
def jsOr (a b : Option JSNum) : Option JSNum := if jsTruthy a then a else b

/-- The filter predicate of `fetchNearbyGames`: games with no usable coordinates
(court coordinates falling back to those of the game itself, each tested for truthiness) are kept,
others are kept when within the radius. -/
def gameKeep (ref : ℝ × ℝ) (r : ℝ) (g : Game) : Prop :=
  let gl := jsOr (g.court.map GameCourt.latitude) g.latitude
  let go := jsOr (g.court.map GameCourt.longitude) g.longitude
  if jsTruthy gl ∧ jsTruthy go then
    jsLe (calculateDistance (num ref.1) (num ref.2) (gl.getD nan) (go.getD nan)) r
  else True

/-- The proximity pass of `fetchNearbyGames` (src/src/stores/gameStore.ts): a pure
filter — no decoration, no sort. -/
def fetchNearbyGames (loc : Option (ℝ × ℝ)) (games : List Game) (r : ℝ) : List Game :=
  match loc with
  | none => games
  | some ref => jsFilter (gameKeep ref r) games

/-- A ranked player whose transient distance is either undefined or a finite number
(true of everything the player pipeline outputs). -/
def FiniteDist (q : RankedPlayer) : Prop :=
  q.distance = none ∨ ∃ x : ℝ, q.distance = some (num x)

/-- The order the player sort is meant to establish: an undefined distance is never
followed by a defined one, and defined distances are non-decreasing. -/
def DistOrder (a b : RankedPlayer) : Prop :=
  (a.distance = none → b.distance = none) ∧
  (∀ x y : ℝ, a.distance = some (num x) → b.distance = some (num y) → x ≤ y)

/-! ### Basic evaluation lemmas for the JSNum operations -/

namespace JSNum

@[simp] theorem add_num_num (x y : ℝ) : (num x).add (num y) = num (x + y) := rfl

@[simp] theorem sub_num_num (x y : ℝ) : (num x).sub (num y) = num (x - y) := rfl

@[simp] theorem mul_num_num (x y : ℝ) : (num x).mul (num y) = num (x * y) := rfl

theorem div_num_num (x y : ℝ) (h : y ≠ 0) : (num x).div (num y) = num (x / y) := by
  simp [div, h]

@[simp] theorem div_nan_left : ∀ x : JSNum, nan.div x = nan := by
  intro x; cases x <;> rfl

@[simp] theorem div_nan_right : ∀ x : JSNum, x.div nan = nan := by
  intro x; cases x <;> rfl

@[simp] theorem jsin_num (x : ℝ) : jsin (num x) = num (Real.sin x) := rfl

@[simp] theorem jcos_num (x : ℝ) : jcos (num x) = num (Real.cos x) := rfl

theorem jsqrt_num_of_nonneg {x : ℝ} (h : 0 ≤ x) : jsqrt (num x) = num (Real.sqrt x) := by
  simp [jsqrt, not_lt.mpr h]

@[simp] theorem jatan2_num_num (y x : ℝ) : jatan2 (num y) (num x) = num (atan2R y x) := rfl

@[simp] theorem add_nan_right : ∀ x : JSNum, x.add nan = nan := by
  intro x; cases x <;> rfl

@[simp] theorem add_nan_left : ∀ x : JSNum, nan.add x = nan := by
  intro x; cases x <;> rfl

@[simp] theorem mul_nan_right : ∀ x : JSNum, x.mul nan = nan := by
  intro x; cases x <;> rfl

@[simp] theorem mul_nan_left : ∀ x : JSNum, nan.mul x = nan := by
  intro x; cases x <;> rfl

@[simp] theorem sub_nan_right : ∀ x : JSNum, x.sub nan = nan := by
  intro x; cases x <;> rfl

@[simp] theorem sub_nan_left : ∀ x : JSNum, nan.sub x = nan := by
  intro x; cases x <;> rfl

@[simp] theorem jsin_nan : jsin nan = nan := rfl

@[simp] theorem jcos_nan : jcos nan = nan := rfl

@[simp] theorem jsqrt_nan : jsqrt nan = nan := rfl

@[simp] theorem jatan2_nan_left : ∀ x : JSNum, jatan2 nan x = nan := by
  intro x; cases x <;> rfl

@[simp] theorem jatan2_nan_right : ∀ x : JSNum, jatan2 x nan = nan := by
  intro x; cases x <;> rfl

@[simp] theorem jsin_inf (s : Bool) : jsin (inf s) = nan := rfl

@[simp] theorem jcos_inf (s : Bool) : jcos (inf s) = nan := rfl

theorem mul_inf_num (s : Bool) (y : ℝ) (h : 0 < y) : (inf s).mul (num y) = inf s := by
  simp [mul, h.ne', h]

theorem div_inf_num (s : Bool) (y : ℝ) (h : 0 < y) : (inf s).div (num y) = inf s := by
  simp [div, h.ne', h]

theorem div_num_pos_denom (x y : ℝ) (h : 0 < y) : (num x).div (num y) = num (x / y) :=
  div_num_num x y h.ne'

@[simp] theorem sub_inf_num (s : Bool) (y : ℝ) : (inf s).sub (num y) = inf s := rfl

@[simp] theorem sub_num_inf (x : ℝ) (t : Bool) : (num x).sub (inf t) = inf (!t) := rfl

end JSNum

/-- `toRad` maps a real degree value to the corresponding real radian value. -/
theorem toRad_num (x : ℝ) : toRad (num x) = num (x * (Real.pi / 180)) := rfl

/-- `toRad` maps infinities to infinities (the conversion factor is positive). -/
theorem toRad_inf (s : Bool) : toRad (inf s) = inf s :=
  mul_inf_num s _ (by positivity)

@[simp] theorem toRad_nan : toRad nan = nan := rfl

/-- Converting a difference of degrees to radians is the same as differencing the converted
values — also at NaN and infinite inputs. -/
theorem toRad_sub (a b : JSNum) : toRad (a.sub b) = (toRad a).sub (toRad b) := by
  have hk : (0:ℝ) < Real.pi / 180 := by positivity
  cases a with
  | nan => simp
  | inf s =>
      cases b with
      | nan => simp
      | inf t =>
          by_cases h : s = t
          · simp [JSNum.sub, h, toRad_inf]
          · simp [JSNum.sub, h, toRad_inf]
      | num y => simp [toRad_inf, toRad_num]
  | num x =>
      cases b with
      | nan => simp
      | inf t => simp [toRad_inf, toRad_num]
      | num y => simp [toRad_num, sub_mul]

/-- On four finite inputs, `calculateDistance` reduces to the real Haversine computation,
with the two square roots still in JSNum form (they can produce NaN when `a ∉ [0,1]`). -/
theorem calculateDistance_num (lat1 lon1 lat2 lon2 : ℝ) :
    calculateDistance (num lat1) (num lon1) (num lat2) (num lon2) =
      (num 6371).mul ((num 2).mul (jatan2 (jsqrt (num (aR lat1 lon1 lat2 lon2)))
        (jsqrt (num (1 - aR lat1 lon1 lat2 lon2))))) := by
  have h2 : (2:ℝ) ≠ 0 := two_ne_zero
  simp only [calculateDistance, toRad, aR, radR, mul_num_num, sub_num_num,
    div_num_num _ _ h2, jsin_num, jcos_num, add_num_num]

/-- `jatan2` only ever returns NaN or a finite number. -/
theorem jatan2_nan_or_num (u v : JSNum) :
    jatan2 u v = nan ∨ ∃ t : ℝ, jatan2 u v = num t := by
  cases u with
  | nan => exact Or.inl (by simp)
  | inf s =>
      cases v with
      | nan => exact Or.inl (by simp)
      | inf t => exact Or.inr ⟨_, rfl⟩
      | num x => exact Or.inr ⟨_, rfl⟩
  | num y =>
      cases v with
      | nan => exact Or.inl (by simp)
      | inf t =>
          cases t
          · exact Or.inr ⟨if 0 ≤ y then Real.pi else -Real.pi, by simp [jatan2]⟩
          · exact Or.inr ⟨0, by simp [jatan2]⟩
      | num x => exact Or.inr ⟨_, rfl⟩

/-- Multiplying a finite constant by a NaN-or-finite value stays NaN-or-finite. -/
theorem mul_num_nan_or_num (k : ℝ) (x : JSNum) (h : x = nan ∨ ∃ t : ℝ, x = num t) :
    (num k).mul x = nan ∨ ∃ t : ℝ, (num k).mul x = num t := by
  rcases h with h | ⟨t, ht⟩
  · rw [h]; exact Or.inl (by simp)
  · rw [ht]; exact Or.inr ⟨k * t, by simp⟩

/-- `calculateDistance` only ever returns NaN or a finite number (never an infinity). -/
theorem calculateDistance_nan_or_num (a b c d : JSNum) :
    calculateDistance a b c d = nan ∨ ∃ x : ℝ, calculateDistance a b c d = num x := by
  simp only [calculateDistance]
  exact mul_num_nan_or_num _ _ (mul_num_nan_or_num _ _ (jatan2_nan_or_num _ _))

/-! ### Properties of the real atan2 -/

theorem atan2R_nonneg {y x : ℝ} (hy : 0 ≤ y) (hx : 0 ≤ x) : 0 ≤ atan2R y x := by
  unfold atan2R
  by_cases h : 0 < x
  · rw [if_pos h]
    have h0 : Real.arctan 0 ≤ Real.arctan (y / x) :=
      Real.arctan_strictMono.monotone (div_nonneg hy h.le)
    rwa [Real.arctan_zero] at h0
  · rw [if_neg h, if_neg (not_lt.mpr hx)]
    by_cases hy0 : 0 < y
    · rw [if_pos hy0]; positivity
    · rw [if_neg hy0, if_neg (not_lt.mpr hy)]

theorem atan2R_le_pi_div_two {y x : ℝ} (hy : 0 ≤ y) (hx : 0 ≤ x) :
    atan2R y x ≤ Real.pi / 2 := by
  unfold atan2R
  by_cases h : 0 < x
  · rw [if_pos h]; exact (Real.arctan_lt_pi_div_two _).le
  · rw [if_neg h, if_neg (not_lt.mpr hx)]
    by_cases hy0 : 0 < y
    · rw [if_pos hy0]
    · rw [if_neg hy0, if_neg (not_lt.mpr hy)]; positivity

theorem atan2R_zero_of_pos {x : ℝ} (h : 0 < x) : atan2R 0 x = 0 := by
  unfold atan2R
  rw [if_pos h, zero_div, Real.arctan_zero]

theorem atan2R_one_zero : atan2R 1 0 = Real.pi / 2 := by
  unfold atan2R
  rw [if_neg (lt_irrefl (0:ℝ)), if_neg (lt_irrefl (0:ℝ)), if_pos one_pos]

/-! ### Non-negativity and boundedness of the distance functions -/

/-- Whichever intermediate `a` the Haversine tail is applied to, a finite result is
non-negative. -/
theorem haversine_tail_nonneg (A : JSNum) (x : ℝ)
    (h : (num 6371).mul ((num 2).mul (jatan2 A.jsqrt ((num 1).sub A).jsqrt)) = num x) :
    0 ≤ x := by
  cases A with
  | nan => simp at h
  | inf s => cases s <;> simp [jsqrt, JSNum.sub] at h
  | num z =>
      by_cases hz : z < 0
      · simp [jsqrt, hz] at h
      · by_cases hz1 : 1 - z < 0
        · simp [jsqrt, hz, hz1] at h
        · simp only [jsqrt, if_neg hz, if_neg hz1, sub_num_num, jatan2_num_num,
            mul_num_num, num.injEq] at h
          have h0 : 0 ≤ atan2R (Real.sqrt z) (Real.sqrt (1 - z)) :=
            atan2R_nonneg (Real.sqrt_nonneg _) (Real.sqrt_nonneg _)
          rw [← h]
          linarith

/-- Every finite value `calculateDistance` returns is non-negative — for arbitrary JSNum
inputs, NaN and infinities included. -/
theorem calculateDistance_num_nonneg (a b c d : JSNum) (x : ℝ)
    (h : calculateDistance a b c d = num x) : 0 ≤ x := by
  simp only [calculateDistance] at h
  exact haversine_tail_nonneg _ _ h

/-! ### Bounds on the intermediate `a` for in-range coordinates -/

theorem cos_radR_nonneg {lat : ℝ} (h : |lat| ≤ 90) : 0 ≤ Real.cos (radR lat) := by
  have hp : (0:ℝ) ≤ Real.pi / 180 := by positivity
  have h1 := (abs_le.mp h).1
  have h2 := (abs_le.mp h).2
  apply Real.cos_nonneg_of_mem_Icc
  constructor
  · calc -(Real.pi / 2) = -90 * (Real.pi / 180) := by ring
      _ ≤ lat * (Real.pi / 180) := mul_le_mul_of_nonneg_right h1 hp
  · calc radR lat ≤ 90 * (Real.pi / 180) := mul_le_mul_of_nonneg_right h2 hp
      _ = Real.pi / 2 := by ring

theorem aR_nonneg {lat1 lat2 : ℝ} (lon1 lon2 : ℝ) (h1 : |lat1| ≤ 90) (h2 : |lat2| ≤ 90) :
    0 ≤ aR lat1 lon1 lat2 lon2 := by
  have hc := mul_nonneg (cos_radR_nonneg h1) (cos_radR_nonneg h2)
  unfold aR
  nlinarith [mul_self_nonneg (Real.sin (radR (lat2 - lat1) / 2)),
    mul_self_nonneg (Real.sin (radR (lon2 - lon1) / 2)),
    mul_nonneg hc (mul_self_nonneg (Real.sin (radR (lon2 - lon1) / 2)))]

theorem aR_le_one {lat1 lat2 : ℝ} (lon1 lon2 : ℝ) (h1 : |lat1| ≤ 90) (h2 : |lat2| ≤ 90) :
    aR lat1 lon1 lat2 lon2 ≤ 1 := by
  have hc := mul_nonneg (cos_radR_nonneg h1) (cos_radR_nonneg h2)
  have hrad : radR (lat2 - lat1) = radR lat2 - radR lat1 := by unfold radR; ring
  have hs : Real.sin (radR (lat2 - lat1) / 2) * Real.sin (radR (lat2 - lat1) / 2)
      = 1 / 2 - Real.cos (radR lat2 - radR lat1) / 2 := by
    have hhalf := Real.sin_sq_eq_half_sub ((radR lat2 - radR lat1) / 2)
    rw [show 2 * ((radR lat2 - radR lat1) / 2) = radR lat2 - radR lat1 by ring] at hhalf
    rw [hrad, ← pow_two]
    exact hhalf
  have ht : Real.sin (radR (lon2 - lon1) / 2) * Real.sin (radR (lon2 - lon1) / 2) ≤ 1 := by
    have := Real.sin_sq_le_one (radR (lon2 - lon1) / 2)
    rwa [pow_two] at this
  have hcos1 : Real.cos (radR lat1) * Real.cos (radR lat2)
      - Real.sin (radR lat1) * Real.sin (radR lat2) ≤ 1 := by
    have hco := Real.cos_le_one (radR lat1 + radR lat2)
    rw [Real.cos_add] at hco
    linarith
  have hcos2 : Real.cos (radR lat2 - radR lat1)
      = Real.cos (radR lat2) * Real.cos (radR lat1)
        + Real.sin (radR lat2) * Real.sin (radR lat1) := Real.cos_sub _ _
  have hprod := mul_le_mul_of_nonneg_left ht hc
  unfold aR
  rw [hs]
  nlinarith [hprod, hcos1, hcos2]

/-- For in-range inputs, `calculateDistance` computes the real Haversine value: both square
roots receive non-negative arguments and the result is the finite number `distR`. -/
theorem calculateDistance_num_of_bounds {lat1 lon1 lat2 lon2 : ℝ}
    (h0 : 0 ≤ aR lat1 lon1 lat2 lon2) (h1 : aR lat1 lon1 lat2 lon2 ≤ 1) :
    calculateDistance (num lat1) (num lon1) (num lat2) (num lon2)
      = num (distR lat1 lon1 lat2 lon2) := by
  rw [calculateDistance_num, jsqrt_num_of_nonneg h0,
    jsqrt_num_of_nonneg (by linarith : (0:ℝ) ≤ 1 - aR lat1 lon1 lat2 lon2)]
  simp [distR]

theorem distR_nonneg (lat1 lon1 lat2 lon2 : ℝ) : 0 ≤ distR lat1 lon1 lat2 lon2 := by
  unfold distR
  have := atan2R_nonneg (Real.sqrt_nonneg (aR lat1 lon1 lat2 lon2))
    (Real.sqrt_nonneg (1 - aR lat1 lon1 lat2 lon2))
  linarith

theorem distR_le (lat1 lon1 lat2 lon2 : ℝ) : distR lat1 lon1 lat2 lon2 ≤ 6371 * Real.pi := by
  unfold distR
  have := atan2R_le_pi_div_two (Real.sqrt_nonneg (aR lat1 lon1 lat2 lon2))
    (Real.sqrt_nonneg (1 - aR lat1 lon1 lat2 lon2))
  linarith

/-! ### Concrete evaluations and algebraic identities of calculateDistance -/

theorem aR_self (lat lon : ℝ) : aR lat lon lat lon = 0 := by
  unfold aR radR
  simp [sub_self]

theorem calculateDistance_self (lat lon : ℝ) :
    calculateDistance (num lat) (num lon) (num lat) (num lon) = num 0 := by
  have h1 : jsqrt (num (0:ℝ)) = num 0 := by
    rw [jsqrt_num_of_nonneg le_rfl, Real.sqrt_zero]
  have h2 : jsqrt (num ((1:ℝ) - 0)) = num 1 := by
    rw [jsqrt_num_of_nonneg (by norm_num), show (1:ℝ) - 0 = 1 by norm_num, Real.sqrt_one]
  rw [calculateDistance_num, aR_self, h1, h2, jatan2_num_num, atan2R_zero_of_pos one_pos]
  norm_num

theorem aR_pole : aR 90 0 90 10 = 0 := by
  unfold aR radR
  rw [show ((90:ℝ) - 90) * (Real.pi / 180) = 0 by ring,
    show (90:ℝ) * (Real.pi / 180) = Real.pi / 2 by ring]
  simp [Real.sin_zero, Real.cos_pi_div_two]

/-- The two pole representations `(90, 0)` and `(90, 10)` are distinct coordinate pairs at
Haversine distance zero. -/
theorem calculateDistance_pole :
    calculateDistance (num 90) (num 0) (num 90) (num 10) = num 0 := by
  have h1 : jsqrt (num (0:ℝ)) = num 0 := by
    rw [jsqrt_num_of_nonneg le_rfl, Real.sqrt_zero]
  have h2 : jsqrt (num ((1:ℝ) - 0)) = num 1 := by
    rw [jsqrt_num_of_nonneg (by norm_num), show (1:ℝ) - 0 = 1 by norm_num, Real.sqrt_one]
  rw [calculateDistance_num, aR_pole, h1, h2, jatan2_num_num, atan2R_zero_of_pos one_pos]
  norm_num

theorem aR_equator : aR 0 0 0 180 = 1 := by
  unfold aR radR
  rw [show ((0:ℝ) - 0) * (Real.pi / 180) = 0 by ring,
    show ((180:ℝ) - 0) * (Real.pi / 180) = Real.pi by ring,
    show (0:ℝ) * (Real.pi / 180) = 0 by ring]
  rw [show (0:ℝ) / 2 = 0 by norm_num]
  simp [Real.sin_zero, Real.cos_zero, Real.sin_pi_div_two]

theorem calculateDistance_equator :
    calculateDistance (num 0) (num 0) (num 0) (num 180) = num (6371 * Real.pi) := by
  have h1 : jsqrt (num (1:ℝ)) = num 1 := by
    rw [jsqrt_num_of_nonneg (by norm_num), Real.sqrt_one]
  have h2 : jsqrt (num ((1:ℝ) - 1)) = num 0 := by
    rw [jsqrt_num_of_nonneg (by norm_num), show (1:ℝ) - 1 = 0 by norm_num, Real.sqrt_zero]
  rw [calculateDistance_num, aR_equator, h1, h2, jatan2_num_num, atan2R_one_zero]
  simp only [mul_num_num, num.injEq]
  ring

theorem aR_symm (lat1 lon1 lat2 lon2 : ℝ) :
    aR lat2 lon2 lat1 lon1 = aR lat1 lon1 lat2 lon2 := by
  unfold aR
  have h1 : radR (lat1 - lat2) = -(radR (lat2 - lat1)) := by unfold radR; ring
  have h2 : radR (lon1 - lon2) = -(radR (lon2 - lon1)) := by unfold radR; ring
  rw [h1, h2, neg_div, neg_div, Real.sin_neg, Real.sin_neg]
  ring

/-- Symmetry of `calculateDistance` on finite coordinates. -/
theorem calculateDistance_symm (lat1 lon1 lat2 lon2 : ℝ) :
    calculateDistance (num lat2) (num lon2) (num lat1) (num lon1)
      = calculateDistance (num lat1) (num lon1) (num lat2) (num lon2) := by
  rw [calculateDistance_num, calculateDistance_num, aR_symm]

/-- An infinite latitude or longitude of the second point makes the whole Haversine
computation collapse to NaN. -/
theorem calculateDistance_inf_nan (lat1 lon1 : ℝ) (v w : JSNum)
    (h : (∃ s, v = inf s) ∨ (∃ s, w = inf s)) :
    calculateDistance (num lat1) (num lon1) v w = nan := by
  simp only [calculateDistance]
  rcases h with ⟨s, rfl⟩ | ⟨s, rfl⟩
  · rw [show (inf s).sub (num lat1) = inf s from rfl, toRad_inf, div_inf_num s 2 two_pos]
    simp
  · rw [show (inf s).sub (num lon1) = inf s from rfl, toRad_inf, div_inf_num s 2 two_pos]
    simp

/-- `calculateDistance` is, step for step, the formula the specification states (computing
the angle differences in degrees and then converting commutes with converting first). -/
theorem calculateDistance_eq_specHaversine (a b c d : JSNum) :
    calculateDistance a b c d = specHaversine a b c d := by
  simp only [calculateDistance, specHaversine, toRad_sub]

theorem mul_num_inf (x : ℝ) (t : Bool) (h : 0 < x) : (num x).mul (inf t) = inf t := by
  simp [JSNum.mul, h.ne', h]

/-- The degree-to-radian computation of the field repository agrees with `toRad` on every
JSNum (multiply by pi first, then divide by 180, versus multiply by pi/180). -/
theorem fieldRad_eq_toRad (x : JSNum) :
    (x.mul (num Real.pi)).div (num 180) = toRad x := by
  cases x with
  | nan => simp
  | inf s =>
      rw [mul_inf_num s _ Real.pi_pos, div_inf_num s 180 (by norm_num), toRad_inf]
  | num x =>
      rw [mul_num_num, div_num_num _ _ (by norm_num : (180:ℝ) ≠ 0), toRad_num]
      congr 1
      ring

/-- The Haversine of the field repository returns exactly 1000 times the kilometre Haversine of
the location store — it computes meters, for every JSNum input. -/
theorem fieldCalculateDistance_eq_thousand (p q : Coordinates) :
    fieldCalculateDistance p q
      = (num 1000).mul (calculateDistance p.latitude p.longitude q.latitude q.longitude) := by
  simp only [fieldCalculateDistance, calculateDistance, fieldRad_eq_toRad]
  generalize jatan2 _ _ = j
  cases j with
  | nan => simp
  | inf s =>
      rw [mul_num_inf 2 s two_pos, mul_num_inf 6371000 s (by norm_num),
        mul_num_inf 6371 s (by norm_num), mul_num_inf 1000 s (by norm_num)]
  | num t =>
      simp only [mul_num_num, num.injEq]
      ring

/-! ### Generic facts about the sort and filter models -/

theorem mem_orderedInsert {α : Type} (cmp : α → α → ℝ) (a x : α) (l : List α) :
    x ∈ orderedInsert cmp a l ↔ x = a ∨ x ∈ l := by
  induction l with
  | nil => simp [orderedInsert]
  | cons b l ih =>
      by_cases h : cmp a b ≤ 0
      · simp [orderedInsert, h]
      · simp [orderedInsert, h, ih]
        tauto

theorem mem_jsSort {α : Type} (cmp : α → α → ℝ) (x : α) (l : List α) :
    x ∈ jsSort cmp l ↔ x ∈ l := by
  induction l with
  | nil => simp [jsSort]
  | cons a l ih => simp [jsSort, mem_orderedInsert, ih]

theorem mem_jsFilter {α : Type} (p : α → Prop) (x : α) (l : List α) :
    x ∈ jsFilter p l ↔ x ∈ l ∧ p x := by
  induction l with
  | nil => simp [jsFilter]
  | cons a l ih =>
      by_cases h : p a
      · simp only [jsFilter, if_pos h, List.mem_cons, ih]
        constructor
        · rintro (rfl | ⟨hx, hp⟩)
          · exact ⟨Or.inl rfl, h⟩
          · exact ⟨Or.inr hx, hp⟩
        · rintro ⟨rfl | hx, hp⟩
          · exact Or.inl rfl
          · exact Or.inr ⟨hx, hp⟩
      · simp only [jsFilter, if_neg h, List.mem_cons, ih]
        constructor
        · rintro ⟨hx, hp⟩
          exact ⟨Or.inr hx, hp⟩
        · rintro ⟨rfl | hx, hp⟩
          · exact absurd hp h
          · exact ⟨hx, hp⟩

theorem orderedInsert_pairwise {α : Type} (cmp : α → α → ℝ) (W : α → α → Prop)
    (Gd : α → Prop)
    (hle : ∀ a b, Gd a → Gd b → cmp a b ≤ 0 → W a b)
    (hgt : ∀ a b, Gd a → Gd b → ¬cmp a b ≤ 0 → W b a)
    (htr : ∀ a b c, Gd a → Gd b → Gd c → W a b → W b c → W a c)
    (a : α) (ha : Gd a) :
    ∀ l : List α, (∀ x ∈ l, Gd x) → l.Pairwise W → (orderedInsert cmp a l).Pairwise W := by
  intro l
  induction l with
  | nil =>
      intro _ _
      simp [orderedInsert]
  | cons b l ih =>
      intro hG hp
      have hGb : Gd b := hG b (List.mem_cons_self b l)
      have hGl : ∀ x ∈ l, Gd x := fun x hx => hG x (List.mem_cons_of_mem b hx)
      rcases List.pairwise_cons.mp hp with ⟨hbl, hpl⟩
      by_cases h : cmp a b ≤ 0
      · simp only [orderedInsert, if_pos h]
        refine List.pairwise_cons.mpr ⟨?_, hp⟩
        intro t ht
        rcases List.mem_cons.mp ht with rfl | htl
        · exact hle a t ha hGb h
        · exact htr a b t ha hGb (hGl t htl) (hle a b ha hGb h) (hbl t htl)
      · simp only [orderedInsert, if_neg h]
        refine List.pairwise_cons.mpr ⟨?_, ih hGl hpl⟩
        intro t ht
        rcases (mem_orderedInsert cmp a t l).mp ht with rfl | htl
        · exact hgt t b ha hGb h
        · exact hbl t htl

theorem jsSort_pairwise {α : Type} (cmp : α → α → ℝ) (W : α → α → Prop) (Gd : α → Prop)
    (hle : ∀ a b, Gd a → Gd b → cmp a b ≤ 0 → W a b)
    (hgt : ∀ a b, Gd a → Gd b → ¬cmp a b ≤ 0 → W b a)
    (htr : ∀ a b c, Gd a → Gd b → Gd c → W a b → W b c → W a c) :
    ∀ l : List α, (∀ x ∈ l, Gd x) → (jsSort cmp l).Pairwise W := by
  intro l
  induction l with
  | nil =>
      intro _
      simp [jsSort]
  | cons a l ih =>
      intro hG
      simp only [jsSort]
      refine orderedInsert_pairwise cmp W Gd hle hgt htr a
        (hG a (List.mem_cons_self a l)) (jsSort cmp l) ?_ ?_
      · intro x hx
        exact hG x (List.mem_cons_of_mem a ((mem_jsSort cmp x l).mp hx))
      · exact ih (fun x hx => hG x (List.mem_cons_of_mem a hx))

theorem jsFilter_orderedInsert {α : Type} (cmp : α → α → ℝ) (p : α → Prop)
    (hp : ∀ x y, p x → p y → cmp x y ≤ 0) (a : α) :
    ∀ l : List α, jsFilter p (orderedInsert cmp a l) = jsFilter p (a :: l) := by
  intro l
  induction l with
  | nil => rfl
  | cons b l ih =>
      by_cases h : cmp a b ≤ 0
      · simp only [orderedInsert, if_pos h]
      · simp only [orderedInsert, if_neg h]
        by_cases hpb : p b
        · have hpa : ¬p a := fun hpa => h (hp a b hpa hpb)
          show jsFilter p (b :: orderedInsert cmp a l) = jsFilter p (a :: b :: l)
          simp only [jsFilter, if_pos hpb, if_neg hpa, ih]
        · show jsFilter p (b :: orderedInsert cmp a l) = jsFilter p (a :: b :: l)
          by_cases hpa : p a
          · simp only [jsFilter, if_neg hpb, if_pos hpa, ih]
          · simp only [jsFilter, if_neg hpb, if_neg hpa, ih]

theorem jsFilter_jsSort {α : Type} (cmp : α → α → ℝ) (p : α → Prop)
    (hp : ∀ x y, p x → p y → cmp x y ≤ 0) :
    ∀ l : List α, jsFilter p (jsSort cmp l) = jsFilter p l := by
  intro l
  induction l with
  | nil => rfl
  | cons a l ih =>
      simp only [jsSort]
      rw [jsFilter_orderedInsert cmp p hp a (jsSort cmp l)]
      by_cases hpa : p a
      · simp only [jsFilter, if_pos hpa, ih]
      · simp only [jsFilter, if_neg hpa, ih]

/-! ### Facts about the proximity pipelines -/

theorem playerDist_cases (ref : ℝ × ℝ) (p : Player) :
    playerDist ref p = none ∨ playerDist ref p = some nan ∨
      ∃ x : ℝ, playerDist ref p = some (num x) := by
  unfold playerDist
  by_cases h : jsTruthy p.latitude ∧ jsTruthy p.longitude
  · rw [if_pos h]
    rcases calculateDistance_nan_or_num (num ref.1) (num ref.2)
        (p.latitude.getD nan) (p.longitude.getD nan) with h1 | ⟨x, h1⟩
    · rw [h1]
      exact Or.inr (Or.inl rfl)
    · rw [h1]
      exact Or.inr (Or.inr ⟨x, rfl⟩)
  · rw [if_neg h]
    exact Or.inl rfl

theorem playerDist_none_iff (ref : ℝ × ℝ) (p : Player) :
    playerDist ref p = none ↔ ¬(jsTruthy p.latitude ∧ jsTruthy p.longitude) := by
  unfold playerDist
  by_cases h : jsTruthy p.latitude ∧ jsTruthy p.longitude
  · simp [h]
  · simp [h]

theorem fetchNearbyPlayers_finiteDist (lat lon : ℝ) (players : List Player) (r : ℝ) :
    ∀ q ∈ jsFilter (playerKeep r)
        (players.map fun p => (⟨p, playerDist (lat, lon) p⟩ : RankedPlayer)),
      FiniteDist q := by
  intro q hq
  rcases (mem_jsFilter _ _ _).mp hq with ⟨hmem, hkeep⟩
  rcases List.mem_map.mp hmem with ⟨p, _, rfl⟩
  rcases playerDist_cases (lat, lon) p with h | h | ⟨x, h⟩
  · exact Or.inl h
  · exfalso
    simp [playerKeep, h, jsLe] at hkeep
  · exact Or.inr ⟨x, h⟩

theorem playerCmp_le_DistOrder (a b : RankedPlayer) (ha : FiniteDist a) (hb : FiniteDist b)
    (h : playerCmp a b ≤ 0) : DistOrder a b := by
  rcases ha with ha | ⟨x, ha⟩
  · exfalso
    rw [show playerCmp a b = 1 from by simp [playerCmp, ha]] at h
    norm_num at h
  · rcases hb with hb | ⟨y, hb⟩
    · constructor
      · intro h0
        rw [ha] at h0
        simp at h0
      · intro x0 y0 _ hy0
        rw [hb] at hy0
        simp at hy0
    · have hcmp : playerCmp a b = x - y := by simp [playerCmp, ha, hb, cmpVal]
      rw [hcmp] at h
      constructor
      · intro h0
        rw [ha] at h0
        simp at h0
      · intro x0 y0 hx0 hy0
        rw [ha] at hx0
        rw [hb] at hy0
        simp only [Option.some.injEq, num.injEq] at hx0 hy0
        rw [← hx0, ← hy0]
        linarith

theorem playerCmp_gt_DistOrder (a b : RankedPlayer) (ha : FiniteDist a) (hb : FiniteDist b)
    (h : ¬playerCmp a b ≤ 0) : DistOrder b a := by
  rcases ha with ha | ⟨x, ha⟩
  · constructor
    · intro _
      exact ha
    · intro x0 y0 _ hy0
      rw [ha] at hy0
      simp at hy0
  · rcases hb with hb | ⟨y, hb⟩
    · exfalso
      apply h
      rw [show playerCmp a b = -1 from by simp [playerCmp, ha, hb]]
      norm_num
    · have hcmp : playerCmp a b = x - y := by simp [playerCmp, ha, hb, cmpVal]
      rw [hcmp] at h
      push_neg at h
      constructor
      · intro h0
        rw [hb] at h0
        simp at h0
      · intro x0 y0 hx0 hy0
        rw [hb] at hx0
        rw [ha] at hy0
        simp only [Option.some.injEq, num.injEq] at hx0 hy0
        rw [← hx0, ← hy0]
        linarith

theorem DistOrder_trans (a b c : RankedPlayer) (_ha : FiniteDist a) (hb : FiniteDist b)
    (_hc : FiniteDist c) (hab : DistOrder a b) (hbc : DistOrder b c) : DistOrder a c := by
  constructor
  · intro h
    exact hbc.1 (hab.1 h)
  · intro x z hx hz
    rcases hb with hb | ⟨y, hb⟩
    · have h0 := hbc.1 hb
      rw [h0] at hz
      simp at hz
    · have h1 := hab.2 x y hx hb
      have h2 := hbc.2 y z hb hz
      linarith

theorem fetchNearbyPlayers_pairwise (lat lon : ℝ) (players : List Player) (r : ℝ) :
    (fetchNearbyPlayers (some (lat, lon)) players r).Pairwise DistOrder := by
  simp only [fetchNearbyPlayers]
  exact jsSort_pairwise playerCmp DistOrder FiniteDist
    playerCmp_le_DistOrder playerCmp_gt_DistOrder DistOrder_trans _
    (fetchNearbyPlayers_finiteDist lat lon players r)

theorem fetchNearbyPlayers_mem (lat lon : ℝ) (players : List Player) (r : ℝ) (p : Player)
    (hp : p ∈ players) (hk : playerKeep r ⟨p, playerDist (lat, lon) p⟩) :
    (⟨p, playerDist (lat, lon) p⟩ : RankedPlayer)
      ∈ fetchNearbyPlayers (some (lat, lon)) players r := by
  simp only [fetchNearbyPlayers]
  rw [mem_jsSort, mem_jsFilter]
  exact ⟨List.mem_map_of_mem _ hp, hk⟩

theorem fetchNearbyPlayers_out (lat lon : ℝ) (players : List Player) (r : ℝ)
    (q : RankedPlayer) (hq : q ∈ fetchNearbyPlayers (some (lat, lon)) players r) :
    ∃ p ∈ players, q = ⟨p, playerDist (lat, lon) p⟩ ∧ playerKeep r q := by
  simp only [fetchNearbyPlayers] at hq
  rw [mem_jsSort, mem_jsFilter] at hq
  rcases hq with ⟨hmem, hk⟩
  rcases List.mem_map.mp hmem with ⟨p, hp, rfl⟩
  exact ⟨p, hp, rfl, hk⟩

theorem fetchNearbyPlayers_singleton (ref : ℝ × ℝ) (p : Player) (r : ℝ) :
    fetchNearbyPlayers (some ref) [p] r =
      if playerKeep r ⟨p, playerDist ref p⟩
      then [(⟨p, playerDist ref p⟩ : RankedPlayer)] else [] := by
  by_cases h : playerKeep r ⟨p, playerDist ref p⟩
  · rw [if_pos h]
    simp [fetchNearbyPlayers, jsFilter, h, jsSort, orderedInsert]
  · rw [if_neg h]
    simp [fetchNearbyPlayers, jsFilter, h, jsSort]

theorem playerCmp_class_le (d : ℝ) :
    ∀ x y : RankedPlayer,
      x.distance = some (num d) → y.distance = some (num d) → playerCmp x y ≤ 0 := by
  intro x y hx hy
  simp [playerCmp, hx, hy, cmpVal]

theorem fetchNearbyCourts_out (lat lon : ℝ) (courts : List Court) (r : ℝ)
    (q : RankedCourt) (hq : q ∈ fetchNearbyCourts (some (lat, lon)) courts r) :
    ∃ c ∈ courts, q = ⟨c, some (courtDist (lat, lon) c)⟩
      ∧ jsLe (q.distance.getD nan) r := by
  simp only [fetchNearbyCourts] at hq
  rw [mem_jsSort, mem_jsFilter] at hq
  rcases hq with ⟨hmem, hk⟩
  rcases List.mem_map.mp hmem with ⟨c, hc, rfl⟩
  exact ⟨c, hc, rfl, hk⟩

theorem fetchNearbyGames_out (lat lon : ℝ) (games : List Game) (r : ℝ)
    (g : Game) (hg : g ∈ fetchNearbyGames (some (lat, lon)) games r) :
    g ∈ games ∧ gameKeep (lat, lon) r g := by
  simp only [fetchNearbyGames] at hg
  exact (mem_jsFilter _ _ _).mp hg

/-! ### The claims -/

/-- Claim C1 (amended): both distance functions implement exactly the Haversine formula of
the specification with Earth radius 6371 km; `calculateDistance` of the location store
returns the kilometre value `R*c` with `R = 6371`, while the field repository computes the
same formula with `R = 6371e3` and hence returns meters — 1000 times the kilometre value —
for every JSNum input, NaN and infinities included. -/
theorem claim_C1 :
    (∀ a b c d : JSNum, calculateDistance a b c d = specHaversine a b c d) ∧
    (∀ p q : Coordinates,
      fieldCalculateDistance p q
        = (num 1000).mul (calculateDistance p.latitude p.longitude q.latitude q.longitude)) :=
  ⟨calculateDistance_eq_specHaversine, fieldCalculateDistance_eq_thousand⟩

/-- Claim C1 counterexample: at (0,0) → (0,180), `FieldRepository.calculateDistance`
returns 6371000·π (meters), not the kilometre value 6371·π that the claimed formula
`R*c` with `R = 6371` yields — so the claim is false of the field repository. -/
theorem claim_C1_counterexample :
    fieldCalculateDistance ⟨num 0, num 0⟩ ⟨num 0, num 180⟩ = num (6371000 * Real.pi) ∧
    specHaversine (num 0) (num 0) (num 0) (num 180) = num (6371 * Real.pi) ∧
    fieldCalculateDistance ⟨num 0, num 0⟩ ⟨num 0, num 180⟩
      ≠ specHaversine (num 0) (num 0) (num 0) (num 180) := by
  have h1 : fieldCalculateDistance ⟨num 0, num 0⟩ ⟨num 0, num 180⟩
      = num (6371000 * Real.pi) := by
    rw [fieldCalculateDistance_eq_thousand]
    show (num 1000).mul (calculateDistance (num 0) (num 0) (num 0) (num 180)) = _
    rw [calculateDistance_equator, mul_num_num]
    congr 1
    ring
  have h2 : specHaversine (num 0) (num 0) (num 0) (num 180) = num (6371 * Real.pi) := by
    rw [← calculateDistance_eq_specHaversine, calculateDistance_equator]
  refine ⟨h1, h2, ?_⟩
  rw [h1, h2]
  intro hcontra
  simp only [num.injEq] at hcontra
  have hpi := Real.pi_pos
  linarith

/-- Claim C8: for coordinates in the valid ranges, the intermediate `a` of the Haversine
computation stays in [0, 1] — so both square roots receive non-negative arguments — and
both distance functions return a finite non-negative number, never NaN. -/
theorem claim_C8 (lat1 lon1 lat2 lon2 : ℝ)
    (h1 : |lat1| ≤ 90) (h2 : |lat2| ≤ 90) (_h3 : |lon1| ≤ 180) (_h4 : |lon2| ≤ 180) :
    (0 ≤ aR lat1 lon1 lat2 lon2 ∧ aR lat1 lon1 lat2 lon2 ≤ 1) ∧
    (∃ d : ℝ, calculateDistance (num lat1) (num lon1) (num lat2) (num lon2) = num d ∧
      0 ≤ d ∧ d ≤ 6371 * Real.pi) ∧
    (∃ dm : ℝ, fieldCalculateDistance ⟨num lat1, num lon1⟩ ⟨num lat2, num lon2⟩ = num dm ∧
      0 ≤ dm) := by
  have h0 := aR_nonneg lon1 lon2 h1 h2
  have hle := aR_le_one lon1 lon2 h1 h2
  refine ⟨⟨h0, hle⟩, ⟨distR lat1 lon1 lat2 lon2,
      calculateDistance_num_of_bounds h0 hle, distR_nonneg _ _ _ _, distR_le _ _ _ _⟩, ?_⟩
  refine ⟨1000 * distR lat1 lon1 lat2 lon2, ?_, ?_⟩
  · rw [fieldCalculateDistance_eq_thousand]
    show (num 1000).mul (calculateDistance (num lat1) (num lon1) (num lat2) (num lon2)) = _
    rw [calculateDistance_num_of_bounds h0 hle, mul_num_num]
  · have := distR_nonneg lat1 lon1 lat2 lon2
    linarith

theorem claim_C8_witness :
    (0 ≤ aR 0 0 0 180 ∧ aR 0 0 0 180 ≤ 1) ∧
    (∃ d : ℝ, calculateDistance (num 0) (num 0) (num 0) (num 180) = num d ∧
      0 ≤ d ∧ d ≤ 6371 * Real.pi) ∧
    (∃ dm : ℝ, fieldCalculateDistance ⟨num 0, num 0⟩ ⟨num 0, num 180⟩ = num dm ∧
      0 ≤ dm) :=
  claim_C8 0 0 0 180 (by norm_num) (by norm_num) (by norm_num) (by norm_num)

/-- Claim C9 (amended): `calculateDistance` is symmetric, returns exactly 0 on identical
coordinate pairs, and every finite value it returns is non-negative; but zero does not
imply equal coordinate pairs (two representations of the north pole are at distance 0). -/
theorem claim_C9 :
    (∀ lat1 lon1 lat2 lon2 : ℝ,
      calculateDistance (num lat2) (num lon2) (num lat1) (num lon1)
        = calculateDistance (num lat1) (num lon1) (num lat2) (num lon2)) ∧
    (∀ lat lon : ℝ, calculateDistance (num lat) (num lon) (num lat) (num lon) = num 0) ∧
    (∀ a b c d : JSNum, ∀ x : ℝ, calculateDistance a b c d = num x → 0 ≤ x) :=
  ⟨calculateDistance_symm, calculateDistance_self, calculateDistance_num_nonneg⟩

theorem claim_C9_witness :
    calculateDistance (num 1) (num 2) (num 1) (num 2) = num 0 ∧ (0:ℝ) ≤ 0 := by
  have hself := claim_C9.2.1 1 2
  exact ⟨hself, claim_C9.2.2 (num 1) (num 2) (num 1) (num 2) 0 hself⟩

/-- Claim C9 counterexample: the distinct coordinate pairs (90, 0) and (90, 10) — both
representing the north pole — are at distance exactly 0, refuting "zero iff a == b". -/
theorem claim_C9_counterexample :
    calculateDistance (num 90) (num 0) (num 90) (num 10) = num 0 ∧
    ¬(((90:ℝ), (0:ℝ)) = ((90:ℝ), (10:ℝ))) := by
  refine ⟨calculateDistance_pole, ?_⟩
  intro h
  have h2 := congrArg Prod.snd h
  norm_num at h2

theorem playerDist_same (lat lon : ℝ) (i : ℕ) (hlat : lat ≠ 0) (hlon : lon ≠ 0) :
    playerDist (lat, lon) ⟨i, some (num lat), some (num lon)⟩ = some (num 0) := by
  unfold playerDist
  rw [if_pos (show jsTruthy (some (num lat)) ∧ jsTruthy (some (num lon)) from ⟨hlat, hlon⟩)]
  show some (calculateDistance (num lat) (num lon) (num lat) (num lon)) = some (num 0)
  rw [calculateDistance_self]

theorem playerDist_num_nonneg (ref : ℝ × ℝ) (p : Player) (x : ℝ)
    (h : playerDist ref p = some (num x)) : 0 ≤ x := by
  unfold playerDist at h
  by_cases ht : jsTruthy p.latitude ∧ jsTruthy p.longitude
  · rw [if_pos ht] at h
    simp only [Option.some.injEq] at h
    exact calculateDistance_num_nonneg _ _ _ _ x h
  · rw [if_neg ht] at h
    simp at h

theorem sample_player_mem :
    (⟨⟨1, some (num 10), some (num 10)⟩, some (num 0)⟩ : RankedPlayer)
      ∈ fetchNearbyPlayers (some (10, 10)) [⟨1, some (num 10), some (num 10)⟩] 10 := by
  have hd : playerDist ((10:ℝ), (10:ℝ)) ⟨1, some (num 10), some (num 10)⟩ = some (num 0) :=
    playerDist_same 10 10 1 (by norm_num) (by norm_num)
  have hk : playerKeep 10
      (⟨⟨1, some (num 10), some (num 10)⟩,
        playerDist (10, 10) ⟨1, some (num 10), some (num 10)⟩⟩ : RankedPlayer) := by
    simp only [playerKeep, hd]
    norm_num [jsLe]
  have hm := fetchNearbyPlayers_mem 10 10 [⟨1, some (num 10), some (num 10)⟩] 10
    ⟨1, some (num 10), some (num 10)⟩ (List.mem_cons_self _ _) hk
  rw [hd] at hm
  exact hm

/-- Claim C4: with an unknown reference location, every proximity pass returns all input
entities unfiltered, in their original order, with undefined distance, for any radius. -/
theorem claim_C4 :
    (∀ (players : List Player) (r : ℝ),
      fetchNearbyPlayers none players r = players.map fun p => ⟨p, none⟩) ∧
    (∀ (games : List Game) (r : ℝ), fetchNearbyGames none games r = games) ∧
    (∀ (courts : List Court) (r : ℝ),
      fetchNearbyCourts none courts r = courts.map fun c => ⟨c, none⟩) :=
  ⟨fun _ _ => rfl, fun _ _ => rfl, fun _ _ => rfl⟩

/-- Claim C5: with a known reference and radius r, every output entity with a defined
finite distance satisfies distance ≤ r, in all three proximity passes — no entity whose
computed distance exceeds r survives the filter. -/
theorem claim_C5 (lat lon r : ℝ) (players : List Player) (courts : List Court)
    (games : List Game) :
    (∀ q ∈ fetchNearbyPlayers (some (lat, lon)) players r,
      ∀ x : ℝ, q.distance = some (num x) → x ≤ r) ∧
    (∀ q ∈ fetchNearbyCourts (some (lat, lon)) courts r,
      ∀ x : ℝ, q.distance = some (num x) → x ≤ r) ∧
    (∀ g ∈ fetchNearbyGames (some (lat, lon)) games r, gameKeep (lat, lon) r g) := by
  refine ⟨?_, ?_, ?_⟩
  · intro q hq x hx
    rcases fetchNearbyPlayers_out lat lon players r q hq with ⟨p, _, rfl, hk⟩
    have hd : playerDist (lat, lon) p = some (num x) := hx
    simp only [playerKeep, hd, jsLe] at hk
    exact hk
  · intro q hq x hx
    rcases fetchNearbyCourts_out lat lon courts r q hq with ⟨c, _, rfl, hk⟩
    have hd : courtDist (lat, lon) c = num x := by
      simpa using hx
    simp only [hd, Option.getD_some, jsLe] at hk
    exact hk
  · intro g hg
    exact (fetchNearbyGames_out lat lon games r g hg).2

theorem claim_C5_witness :
    ((⟨⟨1, some (num 10), some (num 10)⟩, some (num 0)⟩ : RankedPlayer)
      ∈ fetchNearbyPlayers (some (10, 10)) [⟨1, some (num 10), some (num 10)⟩] 10) ∧
    (0 : ℝ) ≤ 10 := by
  refine ⟨sample_player_mem, ?_⟩
  exact (claim_C5 10 10 10 [⟨1, some (num 10), some (num 10)⟩] [] []).1
    ⟨⟨1, some (num 10), some (num 10)⟩, some (num 0)⟩ sample_player_mem 0 rfl

/-- Claim C6 (amended): the pass is a total function (never throws), and for every
strictly negative radius every surviving player has undefined distance — every entity
with a defined computed distance is rejected.  For radius exactly 0 the original claim
fails: an entity at distance exactly 0 is kept (see the counterexample). -/
theorem claim_C6 (lat lon r : ℝ) (players : List Player) (hr : r < 0) :
    ∀ q ∈ fetchNearbyPlayers (some (lat, lon)) players r, q.distance = none := by
  intro q hq
  rcases fetchNearbyPlayers_out lat lon players r q hq with ⟨p, _, rfl, hk⟩
  rcases playerDist_cases (lat, lon) p with h | h | ⟨x, h⟩
  · exact h
  · exfalso
    simp only [playerKeep, h, jsLe] at hk
  · exfalso
    simp only [playerKeep, h, jsLe] at hk
    have := playerDist_num_nonneg (lat, lon) p x h
    linarith

theorem claim_C6_witness :
    ((-1 : ℝ) < 0) ∧
    ((⟨⟨1, none, none⟩, none⟩ : RankedPlayer)
      ∈ fetchNearbyPlayers (some (10, 10)) [⟨1, none, none⟩] (-1)) ∧
    (⟨⟨1, none, none⟩, none⟩ : RankedPlayer).distance = none := by
  have hd : playerDist ((10:ℝ), (10:ℝ)) ⟨1, none, none⟩ = none :=
    (playerDist_none_iff _ _).mpr (by simp [jsTruthy])
  have hm := fetchNearbyPlayers_mem 10 10 [⟨1, none, none⟩] (-1)
    ⟨1, none, none⟩ (List.mem_cons_self _ _) (by simp [playerKeep, hd])
  rw [hd] at hm
  exact ⟨by norm_num, hm,
    claim_C6 10 10 (-1) [⟨1, none, none⟩] (by norm_num) ⟨⟨1, none, none⟩, none⟩ hm⟩

/-- Claim C6 counterexample: with radius exactly 0 (which the claim covers via
radiusKm ≤ 0), a player at the reference point itself has defined distance 0 and is kept —
the pass does not produce zero matches among coordinate-bearing entities. -/
theorem claim_C6_counterexample :
    fetchNearbyPlayers (some (10, 10)) [⟨1, some (num 10), some (num 10)⟩] 0
      = [⟨⟨1, some (num 10), some (num 10)⟩, some (num 0)⟩] := by
  have hd : playerDist ((10:ℝ), (10:ℝ)) ⟨1, some (num 10), some (num 10)⟩ = some (num 0) :=
    playerDist_same 10 10 1 (by norm_num) (by norm_num)
  have hk : playerKeep 0
      (⟨⟨1, some (num 10), some (num 10)⟩,
        playerDist (10, 10) ⟨1, some (num 10), some (num 10)⟩⟩ : RankedPlayer) := by
    simp only [playerKeep, hd]
    norm_num [jsLe]
  rw [fetchNearbyPlayers_singleton, if_pos hk, hd]

/-- Claim C7 (amended): the player pass never lets a NaN distance through the radius
filter — no output entity carries distance NaN — and an Infinity coordinate component on
a player whose coordinates pass the truthiness check yields a computed distance of
exactly NaN (hence rejection); but a NaN coordinate component instead fails the
truthiness check, so the player is kept with undefined distance (see the
counterexample), and in no case does the pass crash: it is a total function. -/
theorem claim_C7 :
    (∀ (lat lon r : ℝ) (players : List Player),
      ∀ q ∈ fetchNearbyPlayers (some (lat, lon)) players r, q.distance ≠ some nan) ∧
    (∀ (lat lon : ℝ) (p : Player) (s : Bool),
      (p.latitude = some (inf s) ∧ jsTruthy p.longitude) ∨
        (jsTruthy p.latitude ∧ p.longitude = some (inf s)) →
      playerDist (lat, lon) p = some nan) := by
  constructor
  · intro lat lon r players q hq hno
    rcases fetchNearbyPlayers_out lat lon players r q hq with ⟨p, _, rfl, hk⟩
    have hd : playerDist (lat, lon) p = some nan := hno
    simp only [playerKeep, hd, jsLe] at hk
  · intro lat lon p s h
    have ht : jsTruthy p.latitude ∧ jsTruthy p.longitude := by
      rcases h with ⟨h1, h2⟩ | ⟨h1, h2⟩
      · refine ⟨?_, h2⟩
        rw [h1]
        trivial
      · refine ⟨h1, ?_⟩
        rw [h2]
        trivial
    unfold playerDist
    rw [if_pos ht]
    rcases h with ⟨h1, _⟩ | ⟨_, h2⟩
    · rw [h1]
      simp only [Option.getD_some, Option.some.injEq]
      exact calculateDistance_inf_nan lat lon (inf s) _ (Or.inl ⟨s, rfl⟩)
    · rw [h2]
      simp only [Option.getD_some, Option.some.injEq]
      exact calculateDistance_inf_nan lat lon _ (inf s) (Or.inr ⟨s, rfl⟩)

theorem claim_C7_witness :
    ((⟨⟨1, some (num 10), some (num 10)⟩, some (num 0)⟩ : RankedPlayer).distance
      ≠ some nan) ∧
    playerDist (10, 10) ⟨2, some (inf true), some (num 20)⟩ = some nan := by
  constructor
  · exact claim_C7.1 10 10 10 [⟨1, some (num 10), some (num 10)⟩]
      ⟨⟨1, some (num 10), some (num 10)⟩, some (num 0)⟩ sample_player_mem
  · exact claim_C7.2 10 10 ⟨2, some (inf true), some (num 20)⟩ true
      (Or.inl ⟨rfl, show (20:ℝ) ≠ 0 by norm_num⟩)

/-- Claim C7 counterexample: a player with a NaN latitude (and a perfectly good longitude)
does not get distance NaN and is not rejected: the truthiness check classifies it as
having no coordinates, so it is kept in the output with undefined distance. -/
theorem claim_C7_counterexample :
    playerDist (10, 10) ⟨1, some nan, some (num 20)⟩ = none ∧
    (⟨⟨1, some nan, some (num 20)⟩, none⟩ : RankedPlayer)
      ∈ fetchNearbyPlayers (some (10, 10)) [⟨1, some nan, some (num 20)⟩] 5 := by
  have hd : playerDist ((10:ℝ), (10:ℝ)) ⟨1, some nan, some (num 20)⟩ = none :=
    (playerDist_none_iff _ _).mpr (by simp [jsTruthy])
  refine ⟨hd, ?_⟩
  have hm := fetchNearbyPlayers_mem 10 10 [⟨1, some nan, some (num 20)⟩] 5
    ⟨1, some nan, some (num 20)⟩ (List.mem_cons_self _ _) (by simp [playerKeep, hd])
  rw [hd] at hm
  exact hm

/-- Claim C10: in `fetchNearbyPlayers` with a known reference, a player with a latitude or
longitude equal to 0 or NaN is classified by the truthiness check as having no
coordinates: its distance stays undefined, it is never excluded by the radius filter, and
in the output every undefined-distance entry comes after all defined-distance entries. -/
theorem claim_C10 (lat lon r : ℝ) (players : List Player) (p : Player)
    (hp : p ∈ players)
    (h : p.latitude = some (num 0) ∨ p.longitude = some (num 0) ∨
      p.latitude = some nan ∨ p.longitude = some nan) :
    playerDist (lat, lon) p = none ∧
    (⟨p, none⟩ : RankedPlayer) ∈ fetchNearbyPlayers (some (lat, lon)) players r ∧
    (fetchNearbyPlayers (some (lat, lon)) players r).Pairwise
      (fun a b => a.distance = none → b.distance = none) := by
  have hnone : playerDist (lat, lon) p = none := by
    apply (playerDist_none_iff _ _).mpr
    rintro ⟨h1, h2⟩
    rcases h with h | h | h | h
    · rw [h] at h1
      exact h1 rfl
    · rw [h] at h2
      exact h2 rfl
    · rw [h] at h1
      exact h1
    · rw [h] at h2
      exact h2
  refine ⟨hnone, ?_, ?_⟩
  · have hm := fetchNearbyPlayers_mem lat lon players r p hp (by simp [playerKeep, hnone])
    rw [hnone] at hm
    exact hm
  · exact (fetchNearbyPlayers_pairwise lat lon players r).imp (fun hab => hab.1)

theorem claim_C10_witness :
    playerDist (10, 10) ⟨1, some (num 0), some (num 7)⟩ = none ∧
    (⟨⟨1, some (num 0), some (num 7)⟩, none⟩ : RankedPlayer)
      ∈ fetchNearbyPlayers (some (10, 10)) [⟨1, some (num 0), some (num 7)⟩] 3 ∧
    (fetchNearbyPlayers (some (10, 10)) [⟨1, some (num 0), some (num 7)⟩] 3).Pairwise
      (fun a b => a.distance = none → b.distance = none) :=
  claim_C10 10 10 3 [⟨1, some (num 0), some (num 7)⟩] ⟨1, some (num 0), some (num 7)⟩
    (List.mem_cons_self _ _) (Or.inl rfl)

/-- Claim C2 (amended): in the player pass with a known reference, the computed distance
is undefined exactly when the truthiness check fails — latitude or longitude absent, 0 or
NaN — not exactly when the coordinate is absent; when both coordinates are truthy finite
in-range values the distance is a defined non-negative number; and a player with
undefined distance always survives the radius filter into the output. -/
theorem claim_C2 (lat lon r : ℝ) (players : List Player) :
    (∀ p : Player,
      playerDist (lat, lon) p = none ↔ ¬(jsTruthy p.latitude ∧ jsTruthy p.longitude)) ∧
    (∀ (p : Player) (la lo : ℝ),
      p.latitude = some (num la) → p.longitude = some (num lo) →
      la ≠ 0 → lo ≠ 0 → |lat| ≤ 90 → |la| ≤ 90 →
      ∃ d : ℝ, playerDist (lat, lon) p = some (num d) ∧ 0 ≤ d) ∧
    (∀ p ∈ players, playerDist (lat, lon) p = none →
      (⟨p, none⟩ : RankedPlayer) ∈ fetchNearbyPlayers (some (lat, lon)) players r) := by
  refine ⟨playerDist_none_iff (lat, lon), ?_, ?_⟩
  · intro p la lo h1 h2 hla0 hlo0 hr1 hr2
    have ht : jsTruthy p.latitude ∧ jsTruthy p.longitude := by
      constructor
      · rw [h1]
        exact hla0
      · rw [h2]
        exact hlo0
    unfold playerDist
    rw [if_pos ht, h1, h2]
    simp only [Option.getD_some]
    rw [calculateDistance_num_of_bounds (aR_nonneg lon lo hr1 hr2) (aR_le_one lon lo hr1 hr2)]
    exact ⟨distR lat lon la lo, rfl, distR_nonneg _ _ _ _⟩
  · intro p hp hnone
    have hm := fetchNearbyPlayers_mem lat lon players r p hp (by simp [playerKeep, hnone])
    rw [hnone] at hm
    exact hm

theorem claim_C2_witness :
    (∃ d : ℝ, playerDist (10, 10) ⟨1, some (num 20), some (num 30)⟩ = some (num d) ∧
      0 ≤ d) ∧
    ((⟨⟨2, none, none⟩, none⟩ : RankedPlayer)
      ∈ fetchNearbyPlayers (some (10, 10)) [⟨2, none, none⟩] 5) := by
  constructor
  · exact (claim_C2 10 10 5 []).2.1 ⟨1, some (num 20), some (num 30)⟩ 20 30 rfl rfl
      (by norm_num) (by norm_num) (by norm_num) (by norm_num)
  · exact (claim_C2 10 10 5 [⟨2, none, none⟩]).2.2 ⟨2, none, none⟩ (List.mem_cons_self _ _)
      ((playerDist_none_iff _ _).mpr (by simp [jsTruthy]))

/-- Claim C2 counterexample: a player at (0, 7) — a present, legitimate equator
coordinate — has both coordinates present, yet its computed distance is undefined: the
distance is not undefined *exactly when the coordinate is absent*. -/
theorem claim_C2_counterexample :
    playerDist (10, 10) ⟨1, some (num 0), some (num 7)⟩ = none ∧
    (⟨1, some (num 0), some (num 7)⟩ : Player).latitude ≠ none ∧
    (⟨1, some (num 0), some (num 7)⟩ : Player).longitude ≠ none := by
  refine ⟨(playerDist_none_iff _ _).mpr ?_, by simp, by simp⟩
  simp [jsTruthy]

/-- Claim C3 (amended): with a known reference the output is sorted — defined distances
non-decreasing, undefined-distance entries after all defined ones — and entities with tied
defined distances keep their relative (post-filter, hence input) order: filtering the
output on any fixed distance d gives the same list as filtering the pre-sort pass.  But
the relative order of undefined-distance entities among themselves is NOT preserved: on
such pairs the comparator returns 1 both ways (an inconsistent comparator, for which
ECMAScript leaves the whole sort order implementation-defined), and in the stable
comparator-sort model they come out reversed (see the counterexample). -/
theorem claim_C3 (lat lon r : ℝ) (players : List Player) :
    (fetchNearbyPlayers (some (lat, lon)) players r).Pairwise
      (fun a b => ∀ x y : ℝ,
        a.distance = some (num x) → b.distance = some (num y) → x ≤ y) ∧
    (fetchNearbyPlayers (some (lat, lon)) players r).Pairwise
      (fun a b => a.distance = none → b.distance = none) ∧
    (∀ d : ℝ,
      jsFilter (fun q : RankedPlayer => q.distance = some (num d))
          (fetchNearbyPlayers (some (lat, lon)) players r)
        = jsFilter (fun q : RankedPlayer => q.distance = some (num d))
            (jsFilter (playerKeep r)
              (players.map fun p => ⟨p, playerDist (lat, lon) p⟩))) := by
  refine ⟨(fetchNearbyPlayers_pairwise lat lon players r).imp (fun hab => hab.2),
    (fetchNearbyPlayers_pairwise lat lon players r).imp (fun hab => hab.1), ?_⟩
  intro d
  simp only [fetchNearbyPlayers]
  exact jsFilter_jsSort playerCmp _ (playerCmp_class_le d) _

/-- Claim C3 counterexample: two players with no coordinates (both distances undefined)
enter in the order id 1, id 2 and leave in the order id 2, id 1: the comparator answers 1
for both orderings of such a pair, and the stable comparator-sort model reverses them —
their relative input order is not preserved. -/
theorem claim_C3_counterexample :
    fetchNearbyPlayers (some (10, 10)) [⟨1, none, none⟩, ⟨2, none, none⟩] 5
      = [⟨⟨2, none, none⟩, none⟩, ⟨⟨1, none, none⟩, none⟩] := by
  have hd1 : playerDist ((10:ℝ), (10:ℝ)) ⟨1, none, none⟩ = none :=
    (playerDist_none_iff _ _).mpr (by simp [jsTruthy])
  have hd2 : playerDist ((10:ℝ), (10:ℝ)) ⟨2, none, none⟩ = none :=
    (playerDist_none_iff _ _).mpr (by simp [jsTruthy])
  simp only [fetchNearbyPlayers, List.map_cons, List.map_nil, hd1, hd2]
  norm_num [jsFilter, playerKeep, jsSort, orderedInsert, playerCmp]
